import Mathlib

/-!
Verification of the JARVIS coordination core (agent registry, command router,
coordinator RPC surface, agent-side executor, certificate authority).

The Python source is shallowly embedded: Python dicts become insertion-ordered
association lists (matching CPython dict semantics: lookup finds the key,
update replaces in place, fresh insert appends, deletion removes the key,
iteration follows insertion order), `datetime.now()` becomes an explicit
`now : Nat` parameter (seconds), random token / uuid generation becomes an
explicit fresh-value parameter, and fallible lookups return `Option`.
-/

namespace Jarvis

/-! ## Python dict model -/

/-- `d.get(k)`: first (unique, for genuine dicts) binding of `k`. -/
def dictGet {α : Type} (l : List (String × α)) (k : String) : Option α :=
  match l with
  | [] => none
  | (k', v) :: rest => if k' = k then some v else dictGet rest k

/-- `d[k] = v`: replace in place if present, else append (CPython order). -/
def dictInsert {α : Type} (l : List (String × α)) (k : String) (v : α) :
    List (String × α) :=
  match l with
  | [] => [(k, v)]
  | (k', v') :: rest =>
    if k' = k then (k, v) :: rest else (k', v') :: dictInsert rest k v

/-- `del d[k]`: remove the binding of `k`. -/
def dictErase {α : Type} (l : List (String × α)) (k : String) :
    List (String × α) :=
  match l with
  | [] => []
  | (k', v') :: rest => if k' = k then rest else (k', v') :: dictErase rest k

/-- Keys of a dict are pairwise distinct (true of every real Python dict). -/
abbrev NodupKeys {α : Type} (l : List (String × α)) : Prop :=
  (l.map Prod.fst).Nodup

theorem dictGet_insert_self {α : Type} (l : List (String × α)) (k : String)
    (v : α) : dictGet (dictInsert l k v) k = some v := by
  induction l with
  | nil => simp [dictInsert, dictGet]
  | cons hd tl ih =>
    obtain ⟨k', v'⟩ := hd
    by_cases h : k' = k
    · simp [dictInsert, dictGet, h]
    · simp [dictInsert, dictGet, h, ih]

theorem dictGet_insert_ne {α : Type} (l : List (String × α)) (k k' : String)
    (v : α) (hne : k ≠ k') : dictGet (dictInsert l k v) k' = dictGet l k' := by
  induction l with
  | nil => simp [dictInsert, dictGet, hne]
  | cons hd tl ih =>
    obtain ⟨k0, v0⟩ := hd
    by_cases h : k0 = k
    · subst h
      simp [dictInsert, dictGet, hne]
    · simp [dictInsert, dictGet, h, ih]

theorem dictGet_eq_none_of_not_mem {α : Type} (l : List (String × α))
    (k : String) (hk : k ∉ l.map Prod.fst) : dictGet l k = none := by
  induction l with
  | nil => simp [dictGet]
  | cons hd tl ih =>
    obtain ⟨k0, v0⟩ := hd
    simp only [List.map_cons, List.mem_cons, not_or] at hk
    have hne : k0 ≠ k := fun h => hk.1 h.symm
    simp [dictGet, hne, ih hk.2]

theorem dictGet_erase_self {α : Type} (l : List (String × α)) (k : String)
    (hnd : NodupKeys l) : dictGet (dictErase l k) k = none := by
  induction l with
  | nil => simp [dictErase, dictGet]
  | cons hd tl ih =>
    obtain ⟨k0, v0⟩ := hd
    simp only [NodupKeys, List.map_cons, List.nodup_cons] at hnd
    by_cases h : k0 = k
    · subst h
      simp only [dictErase, if_pos rfl]
      exact dictGet_eq_none_of_not_mem tl k0 hnd.1
    · simp [dictErase, dictGet, h]
      exact ih hnd.2

theorem dictGet_erase_of_none {α : Type} (l : List (String × α)) (k x : String)
    (h : dictGet l x = none) : dictGet (dictErase l k) x = none := by
  induction l with
  | nil => simpa [dictErase] using h
  | cons hd tl ih =>
    obtain ⟨k0, v0⟩ := hd
    by_cases hk : k0 = k
    · subst hk
      by_cases hx : k0 = x
      · simp [dictGet, hx] at h
      · simp only [dictGet, if_neg hx] at h
        simpa [dictErase] using h
    · by_cases hx : k0 = x
      · simp [dictGet, hx] at h
      · simp only [dictGet, if_neg hx] at h
        simp [dictErase, dictGet, hk, hx, ih h]

/-! ## Data model (src/jarvis/network/server.py)

Opaque JSON-ish payloads (Python `dict`s interpreted only by handlers) are
modelled as string-to-string association lists. -/

/-- `class ClientState(Enum)` — state of a connected client. -/
inductive ClientState where
  | CONNECTING
  | AUTHENTICATED
  | ACTIVE
  | IDLE
  | DISCONNECTED
deriving DecidableEq, Repr

/-- An opaque status / payload dictionary. -/
abbrev StatusDict := List (String × String)

/-- The dictionary appended to `pending_commands` by
`ClientManager.queue_command` (the six listed keys). -/
structure QueuedCommand where
  command_id : String
  command_type : String
  payload : StatusDict
  priority : Int
  timeout_seconds : Int
  require_confirmation : Bool
deriving DecidableEq, Repr

/-- `@dataclass ConnectedClient` — a connected JARVIS client record. -/
structure ConnectedClient where
  client_id : String
  hostname : String
  ip_address : String
  os_type : String
  os_version : String
  capabilities : List String
  state : ClientState
  session_token : Option String
  connected_at : Nat
  last_heartbeat : Nat
  last_status : Option StatusDict
  pending_commands : List QueuedCommand
deriving DecidableEq, Repr

/-- `@dataclass PendingCommand` — a command waiting to be executed.
The `callback : Optional[Callable]` field is a host-language function value
consumed only by the result-correlation path; it is not part of the queued
per-client dictionary and is omitted here. -/
structure PendingCommand where
  command_id : String
  command_type : String
  payload : StatusDict
  target_client : String
  priority : Int
  timeout_seconds : Int
  require_confirmation : Bool
  queued_at : Nat
deriving DecidableEq, Repr

/-- The dictionary literal `queue_command` appends to `pending_commands`. -/
def PendingCommand.toQueued (c : PendingCommand) : QueuedCommand :=
  { command_id := c.command_id
    command_type := c.command_type
    payload := c.payload
    priority := c.priority
    timeout_seconds := c.timeout_seconds
    require_confirmation := c.require_confirmation }

/-- The `client_info` request dictionary read by `register_client`:
`none` models an absent key. -/
structure ClientInfo where
  client_id : Option String
  hostname : Option String
  ip_address : Option String
  os_type : Option String
  os_version : Option String
  capabilities : Option (List String)
deriving DecidableEq, Repr

/-- `client_info` value `{}` (all keys absent). -/
def emptyClientInfo : ClientInfo :=
  { client_id := none, hostname := none, ip_address := none, os_type := none
    os_version := none, capabilities := none }

/-- Python truthiness of an optional string: `not client_id` is true for a
missing key and for the empty string. -/
def pyFalsyStr (s : Option String) : Bool :=
  match s with
  | none => true
  | some s => s.isEmpty

/-- Python truthiness of an optional dict: `if status:` is false for a missing
value and for an empty dict. -/
def pyTruthyDict (d : Option StatusDict) : Bool :=
  match d with
  | none => false
  | some s => !s.isEmpty

/-! ## ClientManager -/

/-- `class ClientManager` — `clients: dict[str, ConnectedClient]`,
`sessions: dict[str, str]` (session_token → client_id), and
`self._heartbeat_timeout = 30` seconds. The `asyncio.Lock` serializes the
mutations; each locked section is modelled as one atomic functional step. -/
structure ClientManager where
  clients : List (String × ConnectedClient)
  sessions : List (String × String)
  heartbeat_timeout : Nat
deriving DecidableEq, Repr

/-- `ClientManager.__init__`. -/
def ClientManager.init : ClientManager :=
  { clients := [], sessions := [], heartbeat_timeout := 30 }

/-- `ClientManager.register_client`: the fresh `secrets.token_urlsafe(32)`
value and `datetime.now()` are passed in as `session_token` and `now`.
Returns `(success, session_token, error_message)` and the new state. -/
def ClientManager.register_client (m : ClientManager) (client_info : ClientInfo)
    (session_token : String) (now : Nat) :
    (Bool × String × String) × ClientManager :=
  if pyFalsyStr client_info.client_id then
    ((false, "", "client_id is required"), m)
  else
    let cid := client_info.client_id.getD ""
    let client : ConnectedClient :=
      { client_id := cid
        hostname := client_info.hostname.getD "unknown"
        ip_address := client_info.ip_address.getD "unknown"
        os_type := client_info.os_type.getD "linux"
        os_version := client_info.os_version.getD ""
        capabilities := client_info.capabilities.getD []
        state := ClientState.AUTHENTICATED
        session_token := some session_token
        connected_at := now
        last_heartbeat := now
        last_status := none
        pending_commands := [] }
    ((true, session_token, ""),
     { m with clients := dictInsert m.clients cid client
              sessions := dictInsert m.sessions session_token cid })

/-- `ClientManager.validate_session`: token → client lookup; the looked-up
`client_id` goes through Python truthiness (`if client_id:`). -/
def ClientManager.validate_session (m : ClientManager) (session_token : String) :
    Option ConnectedClient :=
  match dictGet m.sessions session_token with
  | some cid => if cid.isEmpty then none else dictGet m.clients cid
  | none => none

/-- `ClientManager.update_heartbeat`: refresh `last_heartbeat`, force the
state to `ACTIVE`, and store the status dict only when it is truthy. -/
def ClientManager.update_heartbeat (m : ClientManager) (client_id : String)
    (status : Option StatusDict) (now : Nat) : Bool × ClientManager :=
  match dictGet m.clients client_id with
  | some client =>
      let client' :=
        { client with
            last_heartbeat := now
            state := ClientState.ACTIVE
            last_status :=
              if pyTruthyDict status then status else client.last_status }
      (true, { m with clients := dictInsert m.clients client_id client' })
  | none => (false, m)

/-- `ClientManager.get_pending_commands`: copy the pending queue out and
clear it (no state change when the client is missing or the queue is empty,
matching `if client and client.pending_commands:`). -/
def ClientManager.get_pending_commands (m : ClientManager) (client_id : String) :
    List QueuedCommand × ClientManager :=
  match dictGet m.clients client_id with
  | some client =>
      if client.pending_commands.isEmpty then ([], m)
      else
        (client.pending_commands,
         { m with clients := dictInsert m.clients client_id
                    { client with pending_commands := [] } })
  | none => ([], m)

/-- `ClientManager.queue_command`: append the queued-command dictionary when
the client record exists (the client's `state` is not consulted). -/
def ClientManager.queue_command (m : ClientManager) (client_id : String)
    (command : PendingCommand) : Bool × ClientManager :=
  match dictGet m.clients client_id with
  | some client =>
      (true,
       { m with clients := dictInsert m.clients client_id
                  { client with pending_commands :=
                      client.pending_commands ++ [command.toQueued] } })
  | none => (false, m)

/-- `ClientManager.disconnect_client`: mark `DISCONNECTED` and delete the
client's current session token (`if client.session_token in self.sessions`). -/
def ClientManager.disconnect_client (m : ClientManager) (client_id : String) :
    Bool × ClientManager :=
  match dictGet m.clients client_id with
  | some client =>
      let m1 := { m with clients := dictInsert m.clients client_id
                           { client with state := ClientState.DISCONNECTED } }
      let m2 :=
        match client.session_token with
        | some tok =>
            if (dictGet m1.sessions tok).isSome then
              { m1 with sessions := dictErase m1.sessions tok }
            else m1
        | none => m1
      (true, m2)
  | none => (false, m)

/-- The staleness test of `cleanup_stale_clients`:
`client.state != DISCONNECTED` and
`(now - client.last_heartbeat).total_seconds() > self._heartbeat_timeout`
(a heartbeat timestamped in the future yields a non-positive difference,
matching truncating `Nat` subtraction). -/
def isStale (now timeout : Nat) (c : ConnectedClient) : Bool :=
  c.state != ClientState.DISCONNECTED && decide (now - c.last_heartbeat > timeout)

/-- One iteration of the second loop of `cleanup_stale_clients`: disconnect
the named client and delete its session token. -/
def ClientManager.disconnectStale (m : ClientManager) (client_id : String) :
    ClientManager :=
  match dictGet m.clients client_id with
  | some client =>
      let m1 := { m with clients := dictInsert m.clients client_id
                           { client with state := ClientState.DISCONNECTED } }
      match client.session_token with
      | some tok =>
          if (dictGet m1.sessions tok).isSome then
            { m1 with sessions := dictErase m1.sessions tok }
          else m1
      | none => m1
  | none => m

/-- `ClientManager.cleanup_stale_clients`: first collect the ids of the
stale clients, then disconnect each one and drop its token. -/
def ClientManager.cleanup_stale_clients (m : ClientManager) (now : Nat) :
    ClientManager :=
  let stale_clients :=
    (m.clients.filter (fun p => isStale now m.heartbeat_timeout p.2)).map
      Prod.fst
  stale_clients.foldl ClientManager.disconnectStale m

/-- A state counted as active by `get_active_clients`. -/
def isActiveState (s : ClientState) : Bool :=
  s == ClientState.ACTIVE || s == ClientState.AUTHENTICATED ||
    s == ClientState.IDLE

/-- `ClientManager.get_active_clients`: the values (in dict insertion order)
whose state is `ACTIVE`, `AUTHENTICATED` or `IDLE`. -/
def ClientManager.get_active_clients (m : ClientManager) :
    List ConnectedClient :=
  (m.clients.filter (fun p => isActiveState p.2.state)).map Prod.snd

/-- `ClientManager.get_client_by_hostname`: first client (insertion order)
whose lowercased hostname equals the lowercased query. -/
def ClientManager.get_client_by_hostname (m : ClientManager)
    (hostname : String) : Option ConnectedClient :=
  (m.clients.find? (fun p => p.2.hostname.toLower == hostname.toLower)).map
    Prod.snd

/-! ## CommandRouter -/

/-- The wire dictionary a client sends to `handle_command_result`
(`request.get` keys actually read by the server and the result fields the
agent adds); `none` models an absent key. The whole request dictionary is
what `handle_result` stores. -/
structure ResultRequest where
  command_id : Option String
  session_token : Option String
  success : Option Bool
  output : Option String
  error : Option String
deriving DecidableEq, Repr

/-- `class CommandRouter` — `command_results: dict[str, Any]`. The
`result_callbacks` table holds host-language function values; every claim
here concerns the callback-free path (`callback=None`), on which the table
stays empty, so it is not carried in the state. -/
structure CommandRouter where
  command_results : List (String × ResultRequest)
deriving DecidableEq, Repr

/-- `CommandRouter.__init__`. -/
def CommandRouter.init : CommandRouter := { command_results := [] }

/-- `CommandRouter.handle_result` (no callback registered for the id):
store the result keyed by `command_id`. -/
def CommandRouter.handle_result (r : CommandRouter) (command_id : String)
    (result : ResultRequest) : CommandRouter :=
  { r with command_results := dictInsert r.command_results command_id result }

/-- `CommandRouter.send_command` (callback-free path): build the
`PendingCommand` from the freshly generated `uuid4` (passed in as
`command_id`), resolve `target`, and queue. Returns `command_id` and the
updated `ClientManager`. -/
def CommandRouter.send_command (cm : ClientManager) (target : String)
    (command_type : String) (payload : StatusDict) (priority : Int)
    (timeout : Int) (require_confirmation : Bool) (command_id : String)
    (now : Nat) : String × ClientManager :=
  let command : PendingCommand :=
    { command_id := command_id
      command_type := command_type
      payload := payload
      target_client := target
      priority := priority
      timeout_seconds := timeout
      require_confirmation := require_confirmation
      queued_at := now }
  if target = "all" then
    let clients := cm.get_active_clients
    (command_id,
     clients.foldl (fun acc c => (acc.queue_command c.client_id command).2) cm)
  else
    match dictGet cm.clients target with
    | some client => (command_id, (cm.queue_command client.client_id command).2)
    | none =>
        match cm.get_client_by_hostname target with
        | some client =>
            (command_id, (cm.queue_command client.client_id command).2)
        | none => (command_id, cm)

/-! ## JarvisServer service handlers -/

/-- `class JarvisServer` — the fields the RPC handlers touch:
`client_manager`, `command_router`, and
`self.auth_tokens = set(config.get("network.auth_tokens", []))` (membership
in the configured collection). Event-handler lists hold host callables and
are observed by no claim. -/
structure JarvisServer where
  client_manager : ClientManager
  command_router : CommandRouter
  auth_tokens : List String
deriving DecidableEq, Repr

/-- The `Authenticate` request dictionary. -/
structure AuthRequest where
  auth_token : Option String
  client_info : Option ClientInfo
deriving DecidableEq, Repr

/-- The `Authenticate` response dictionary; the early failure return carries
only `success` and `error_message`, so the other keys are optional. -/
structure AuthResponse where
  success : Bool
  session_token : Option String
  error_message : Option String
  heartbeat_interval : Option Nat
deriving DecidableEq, Repr

/-- `JarvisServer.handle_authenticate`: reject when an allow-list is
configured and the presented token is not in it; otherwise register the
client (the fresh session token is passed in). -/
def JarvisServer.handle_authenticate (s : JarvisServer) (request : AuthRequest)
    (fresh_token : String) (now : Nat) : AuthResponse × JarvisServer :=
  let auth_token := request.auth_token.getD ""
  if !s.auth_tokens.isEmpty && !s.auth_tokens.contains auth_token then
    ({ success := false
       session_token := none
       error_message := some "Invalid authentication token"
       heartbeat_interval := none }, s)
  else
    let r := s.client_manager.register_client
      (request.client_info.getD emptyClientInfo) fresh_token now
    ({ success := r.1.1
       session_token := some r.1.2.1
       error_message := some r.1.2.2
       heartbeat_interval := some 10 },
     { s with client_manager := r.2 })

/-- The `Heartbeat` request dictionary. -/
structure HeartbeatRequest where
  session_token : Option String
  status : Option StatusDict
deriving DecidableEq, Repr

/-- The `Heartbeat` response dictionary. -/
structure HeartbeatResponse where
  success : Bool
  pending_commands : List QueuedCommand
deriving DecidableEq, Repr

/-- `JarvisServer.handle_heartbeat`: validate the session token; on failure
return `{"success": False, "pending_commands": []}` unchanged; on success
refresh the heartbeat (status defaulted to `{}`) and drain the queue. -/
def JarvisServer.handle_heartbeat (s : JarvisServer) (request : HeartbeatRequest)
    (now : Nat) : HeartbeatResponse × JarvisServer :=
  let session_token := request.session_token.getD ""
  match s.client_manager.validate_session session_token with
  | none => ({ success := false, pending_commands := [] }, s)
  | some client =>
      let r1 := s.client_manager.update_heartbeat client.client_id
        (some (request.status.getD [])) now
      let r2 := r1.2.get_pending_commands client.client_id
      ({ success := true, pending_commands := r2.1 },
       { s with client_manager := r2.2 })

/-- The `ReportResult` acknowledgement dictionary `{"received": True}`. -/
structure ResultAck where
  received : Bool
deriving DecidableEq, Repr

/-- `JarvisServer.handle_command_result`: store the result under
`request.get("command_id", "")` and acknowledge — the request's session
token is never consulted. -/
def JarvisServer.handle_command_result (s : JarvisServer)
    (request : ResultRequest) : ResultAck × JarvisServer :=
  let command_id := request.command_id.getD ""
  ({ received := true },
   { s with command_router :=
       s.command_router.handle_result command_id request })

/-! ## Agent-side executor (src/jarvis/network/client.py) -/

/-- `pat` occurs as a contiguous run inside `s`. -/
def charsContain (s pat : List Char) : Bool :=
  match s with
  | [] => pat.isEmpty
  | _ :: rest => pat.isPrefixOf s || charsContain rest pat

/-- Python substring test `pat in s`. -/
def strContains (s pat : String) : Bool :=
  charsContain s.toList pat.toList

/-- The payload dictionary read by `_execute_shell`
(`payload.get("command", "")`, `payload.get("timeout", 30)`); other keys are
opaque to the executor core. -/
structure ExecPayload where
  command : Option String
  timeout : Option Int
  rest : StatusDict
deriving DecidableEq, Repr

/-- A handler result dictionary (`success`, optional `error`/`output`/
`exit_code`, and the `duration_ms` stamp added by `execute`). -/
structure ExecDict where
  success : Bool
  error : Option String
  output : Option String
  exit_code : Option Int
  duration_ms : Option Int
deriving DecidableEq, Repr

/-- The effectful parts of the handlers, as an oracle: `runShell` is the
outcome of `asyncio.create_subprocess_shell`/`communicate` (including the
timeout and exception branches of `_execute_shell`), and `runHandler` is the
dict produced by any non-shell handler body or by the `except` clause of
`execute` if that body raised. Both are total: every Python path of
`execute` ends in a returned dict, never a propagated exception. -/
structure ExecOracle where
  runShell : String → Int → ExecDict
  runHandler : String → ExecPayload → ExecDict

/-- `class CommandExecutor` — the configurable pattern lists read from the
constructor config. -/
structure CommandExecutor where
  allowed_commands : List String
  blocked_commands : List String
deriving DecidableEq, Repr

/-- `CommandExecutor.__init__` with no config: the default
`blocked_commands` list. -/
def CommandExecutor.initDefault : CommandExecutor :=
  { allowed_commands := []
    blocked_commands :=
      ["rm -rf /", "dd if=/dev/zero", ":()\x7b:|:&\x7d;:", "mkfs",
       "chmod -R 777 /"] }

/-- The keys of `self._handlers` as built by `CommandExecutor.__init__`. -/
def handlerTable : List String :=
  ["shell", "execute", "app", "speak", "screen_capture", "file_read",
   "file_write", "system", "message"]

/-- `CommandExecutor._execute_shell`: scan `blocked_commands` in order and
refuse on the first pattern contained in the command string; only past that
gate is the subprocess oracle consulted. -/
def CommandExecutor.execute_shell (ex : CommandExecutor) (oracle : ExecOracle)
    (payload : ExecPayload) : ExecDict :=
  let command := payload.command.getD ""
  match ex.blocked_commands.find? (fun blocked => strContains command blocked) with
  | some blocked =>
      { success := false
        error := some ("Blocked command pattern: " ++ blocked)
        output := none, exit_code := none, duration_ms := none }
  | none => oracle.runShell command (payload.timeout.getD 30)

/-- `result["duration_ms"] = int((time.time() - start_time) * 1000)`. -/
def withDuration (d : ExecDict) (duration_ms : Int) : ExecDict :=
  { d with duration_ms := some duration_ms }

/-- `CommandExecutor.execute`: unknown command types produce a structured
failure before any handler runs; `"shell"` and `"execute"` dispatch to
`_execute_shell`; other table entries dispatch to their handler body. -/
def CommandExecutor.execute (ex : CommandExecutor) (oracle : ExecOracle)
    (command_type : String) (payload : ExecPayload) (duration_ms : Int) :
    ExecDict :=
  if !handlerTable.contains command_type then
    { success := false
      error := some ("Unknown command type: " ++ command_type)
      output := none, exit_code := none, duration_ms := none }
  else if command_type == "shell" || command_type == "execute" then
    withDuration (ex.execute_shell oracle payload) duration_ms
  else
    withDuration (oracle.runHandler command_type payload) duration_ms

/-! ## Certificate authority (src/jarvis/security/pki.py)

The external `cryptography` library's RSA-SHA256 primitives are modelled as
an ideal signature scheme: a signature value records the signer's key and
the exact signed bytes, and verification succeeds exactly when the
verifying public key is the signer's and the bytes match. Key generation is
passed in as an explicit fresh key with a numeric identity (`keyId`);
distinct identities model independently generated random keys. -/

/-- An RSA key pair (`rsa.generate_private_key`); `keyId` identifies the
pair, and the corresponding public key is the same identity. -/
structure RSAPrivateKey where
  keyId : Nat
deriving DecidableEq, Repr

/-- The to-be-signed portion of an X.509 certificate, restricted to the
fields the source sets: subject/issuer common names, the embedded subject
public key, serial, validity window, and the BasicConstraints CA flag. -/
structure TBSCertificate where
  subject_cn : String
  issuer_cn : String
  public_key : Nat
  serial_number : Nat
  not_valid_before : Nat
  not_valid_after : Nat
  is_ca : Bool
deriving DecidableEq, Repr

/-- An ideal signature: the signing key's identity over the signed bytes. -/
structure CertSignature where
  signer : Nat
  signed_bytes : TBSCertificate
deriving DecidableEq, Repr

/-- `CertificateBuilder.sign(key, SHA256)`. -/
def rsaSign (key : RSAPrivateKey) (tbs : TBSCertificate) : CertSignature :=
  { signer := key.keyId, signed_bytes := tbs }

/-- `public_key.verify(signature, tbs_bytes, params)` of the ideal scheme:
true exactly for the signer's public key over the same bytes. -/
def rsaVerify (public_key : Nat) (sig : CertSignature)
    (tbs : TBSCertificate) : Bool :=
  sig.signer == public_key && sig.signed_bytes == tbs

/-- An X.509 certificate: signed portion plus signature. -/
structure Certificate where
  tbs : TBSCertificate
  signature : CertSignature
deriving DecidableEq, Repr

/-- `class CertificateAuthority` — the in-memory `_ca_key` / `_ca_cert`
(both `None` until `initialize`). -/
structure CertificateAuthority where
  ca_key : Option RSAPrivateKey
  ca_cert : Option Certificate
deriving DecidableEq, Repr

/-- The generation branch of `CertificateAuthority.initialize`: a fresh
4096-bit root key (passed in), a self-signed 10-year CA certificate with
CN "JARVIS CA" whose embedded public key is the root key's. -/
def CertificateAuthority.initializeGenerate (ca_key : RSAPrivateKey)
    (serial : Nat) (now : Nat) : CertificateAuthority :=
  let tbs : TBSCertificate :=
    { subject_cn := "JARVIS CA", issuer_cn := "JARVIS CA"
      public_key := ca_key.keyId, serial_number := serial
      not_valid_before := now, not_valid_after := now + 3650 * 86400
      is_ca := true }
  { ca_key := some ca_key
    ca_cert := some { tbs := tbs, signature := rsaSign ca_key tbs } }

/-- `CertificateAuthority.generate_client_cert`: fails when the CA is not
initialized; otherwise builds a leaf certificate for the fresh 2048-bit key
(passed in), with CN `hostname or client_id`, issued and signed by the
root. Returns the certificate persisted at `cert_path`. -/
def CertificateAuthority.generate_client_cert (ca : CertificateAuthority)
    (client_id : String) (hostname : Option String) (validity_days : Nat)
    (leaf_key : RSAPrivateKey) (serial : Nat) (now : Nat) :
    Option Certificate :=
  match ca.ca_key, ca.ca_cert with
  | some caKey, some caCert =>
      let hn :=
        match hostname with
        | some h => if h.isEmpty then client_id else h
        | none => client_id
      let tbs : TBSCertificate :=
        { subject_cn := hn, issuer_cn := caCert.tbs.subject_cn
          public_key := leaf_key.keyId, serial_number := serial
          not_valid_before := now
          not_valid_after := now + validity_days * 86400
          is_ca := false }
      some { tbs := tbs, signature := rsaSign caKey tbs }
  | _, _ => none

/-- `CertificateAuthority.verify_certificate`: false when no CA is loaded;
otherwise check the certificate's signature against the loaded root
certificate's embedded public key over the certificate's signed bytes
(any library exception is caught and yields false — in the ideal scheme the
check itself is total). -/
def CertificateAuthority.verify_certificate (ca : CertificateAuthority)
    (cert : Certificate) : Bool :=
  match ca.ca_cert with
  | none => false
  | some caCert => rsaVerify caCert.tbs.public_key cert.signature cert.tbs

/-! ## Dictionary lemmas -/

theorem dictGet_mem {α : Type} {l : List (String × α)} {k : String} {v : α}
    (h : dictGet l k = some v) : (k, v) ∈ l := by
  induction l with
  | nil => simp [dictGet] at h
  | cons hd tl ih =>
    obtain ⟨k0, v0⟩ := hd
    by_cases hk : k0 = k
    · subst hk
      have hv : v0 = v := by simpa [dictGet] using h
      subst hv
      exact List.mem_cons_self _ _
    · simp only [dictGet, if_neg hk] at h
      exact List.mem_cons_of_mem _ (ih h)

theorem dictGet_eq_some_of_mem {α : Type} {l : List (String × α)} {k : String}
    {v : α} (hnd : NodupKeys l) (h : (k, v) ∈ l) : dictGet l k = some v := by
  induction l with
  | nil => simp at h
  | cons hd tl ih =>
    obtain ⟨k0, v0⟩ := hd
    simp only [NodupKeys, List.map_cons, List.nodup_cons] at hnd
    rcases List.mem_cons.mp h with heq | hmem
    · rw [Prod.mk.injEq] at heq
      obtain ⟨h1, h2⟩ := heq
      simp only [dictGet]
      rw [if_pos h1.symm]
      exact congrArg some h2.symm
    · have hk : k0 ≠ k := by
        intro hk0
        subst hk0
        exact hnd.1 (List.mem_map.mpr ⟨(k0, v), hmem, rfl⟩)
      simp only [dictGet, if_neg hk]
      exact ih hnd.2 hmem

theorem mem_keys_dictInsert {α : Type} (l : List (String × α)) (k x : String)
    (v : α) :
    x ∈ (dictInsert l k v).map Prod.fst ↔ x ∈ l.map Prod.fst ∨ x = k := by
  induction l with
  | nil => simp [dictInsert]
  | cons hd tl ih =>
    obtain ⟨k0, v0⟩ := hd
    by_cases h : k0 = k
    · subst h
      simp [dictInsert]
      tauto
    · simp [dictInsert, h, ih]
      tauto

theorem nodupKeys_dictInsert {α : Type} (l : List (String × α)) (k : String)
    (v : α) (hnd : NodupKeys l) : NodupKeys (dictInsert l k v) := by
  induction l with
  | nil => simp [dictInsert, NodupKeys]
  | cons hd tl ih =>
    obtain ⟨k0, v0⟩ := hd
    simp only [NodupKeys, List.map_cons, List.nodup_cons] at hnd
    by_cases h : k0 = k
    · subst h
      simpa [dictInsert, NodupKeys] using hnd
    · have htl := ih hnd.2
      simp only [dictInsert, if_neg h, NodupKeys, List.map_cons,
        List.nodup_cons]
      refine ⟨?_, htl⟩
      intro hmem
      rcases (mem_keys_dictInsert tl k k0 v).mp hmem with hin | heq
      · exact hnd.1 hin
      · exact h heq

theorem mem_dictInsert {α : Type} {l : List (String × α)} {k : String} {v : α}
    {p : String × α} (h : p ∈ dictInsert l k v) : p ∈ l ∨ p = (k, v) := by
  induction l with
  | nil => simpa [dictInsert] using h
  | cons hd tl ih =>
    obtain ⟨k0, v0⟩ := hd
    by_cases hk : k0 = k
    · subst hk
      rcases List.mem_cons.mp (by simpa [dictInsert] using h) with heq | hmem
      · exact Or.inr heq
      · exact Or.inl (List.mem_cons_of_mem _ hmem)
    · rcases List.mem_cons.mp (by simpa [dictInsert, hk] using h) with heq | hmem
      · exact Or.inl (heq ▸ List.mem_cons_self _ _)
      · rcases ih hmem with h1 | h2
        · exact Or.inl (List.mem_cons_of_mem _ h1)
        · exact Or.inr h2

theorem nodupKeys_dictErase {α : Type} (l : List (String × α)) (k : String)
    (hnd : NodupKeys l) : NodupKeys (dictErase l k) := by
  induction l with
  | nil => simpa [dictErase] using hnd
  | cons hd tl ih =>
    obtain ⟨k0, v0⟩ := hd
    simp only [NodupKeys, List.map_cons, List.nodup_cons] at hnd
    by_cases h : k0 = k
    · subst h
      simpa [dictErase] using hnd.2
    · have htl := ih hnd.2
      simp only [dictErase, if_neg h, NodupKeys, List.map_cons,
        List.nodup_cons]
      refine ⟨?_, htl⟩
      intro hmem
      have sub : List.Sublist ((dictErase tl k).map Prod.fst)
          (tl.map Prod.fst) := by
        clear hmem htl ih hnd
        induction tl with
        | nil => simp [dictErase]
        | cons hd2 tl2 ih2 =>
          obtain ⟨k2, v2⟩ := hd2
          by_cases h2 : k2 = k
          · simp only [dictErase, if_pos h2, List.map_cons]
            exact List.Sublist.cons _ (List.Sublist.refl _)
          · simp only [dictErase, if_neg h2, List.map_cons]
            exact List.Sublist.cons₂ _ ih2
      exact hnd.1 (sub.subset hmem)

/-! ## Registry well-formedness

Invariants every reachable `ClientManager` satisfies (Python dict keys are
unique; `register_client` stores each record under its own `client_id`). -/

structure WF (m : ClientManager) : Prop where
  clients_nodup : NodupKeys m.clients
  sessions_nodup : NodupKeys m.sessions
  keys_coherent : ∀ p ∈ m.clients, p.2.client_id = p.1

/-! ## Concrete fixtures -/

/-- A well-formed `client_info` dictionary for agent "agent-A". -/
def ciA : ClientInfo :=
  { client_id := some "agent-A", hostname := some "pc-01"
    ip_address := some "10.0.0.5", os_type := some "linux"
    os_version := some "6.1", capabilities := some ["shell"] }

/-- A `client_info` dictionary for a second agent "agent-B". -/
def ciB : ClientInfo :=
  { client_id := some "agent-B", hostname := some "pc-02"
    ip_address := some "10.0.0.6", os_type := some "linux"
    os_version := some "6.1", capabilities := some ["shell"] }

/-- A registry with "agent-A" registered under token "tok-1" at time 0. -/
def mA : ClientManager := (ClientManager.init.register_client ciA "tok-1" 0).2

/-- A server with "agent-A" registered and an auth allow-list configured. -/
def serverFixture : JarvisServer :=
  { client_manager := mA, command_router := CommandRouter.init
    auth_tokens := ["secret"] }

/-- A server whose configured auth-token set is empty. -/
def authDisabledServer : JarvisServer :=
  { client_manager := ClientManager.init, command_router := CommandRouter.init
    auth_tokens := [] }

/-! ## C1 -/

/-- C1: the claim says a successful re-`register` for the same agent id
invalidates the previously issued session token immediately
(`validateSession(t1) = none`). The code disagrees: `register_client`
overwrites the agent record and adds the new token to `sessions`, but never
deletes the old token, so after re-registering "agent-A" with "tok-2" the
superseded "tok-1" still validates — and resolves to the agent's new record,
identical to what "tok-2" resolves to. No code path can ever remove the
leaked token: `disconnect_client` and `cleanup_stale_clients` delete only
the record's current `session_token`. -/
theorem C1_superseded_token_still_validates :
    ((mA.register_client ciA "tok-2" 5).2.validate_session "tok-1").isSome
        = true ∧
      (mA.register_client ciA "tok-2" 5).2.validate_session "tok-1" =
        (mA.register_client ciA "tok-2" 5).2.validate_session "tok-2" := by
  exact ⟨rfl, rfl⟩

/-! ## C2 -/

/-- C2 counterexample: the claim says both `Heartbeat` and `ReportResult`
reject a request whose session token does not validate. At the concrete
state `serverFixture` the token "bogus" does not validate, yet
`handle_command_result` acknowledges the request (`received = true`) and
stores it in the result table — it is processed, not rejected: the handler
never reads a session token at all. -/
theorem C2_report_result_skips_session_validation :
    serverFixture.client_manager.validate_session "bogus" = none ∧
      (serverFixture.handle_command_result
          { command_id := some "cmd-1", session_token := some "bogus"
            success := some true, output := some "out", error := none }).1 =
        { received := true } ∧
      dictGet (serverFixture.handle_command_result
          { command_id := some "cmd-1", session_token := some "bogus"
            success := some true, output := some "out", error := none
            }).2.command_router.command_results "cmd-1" =
        some { command_id := some "cmd-1", session_token := some "bogus"
               success := some true, output := some "out", error := none } := by
  exact ⟨rfl, rfl, rfl⟩

/-- C2 (amended): `Heartbeat` validates the presented session token and, for
an unknown or superseded token, returns the structured failure
`{"success": False, "pending_commands": []}` with the server state
unchanged, rather than throwing; `ReportResult` performs no session
validation at all — for every request (whatever its token) it stores the
result under the request's command id and acknowledges with
`{"received": True}`, leaving the registry untouched. -/
theorem C2_amended_heartbeat_rejects_report_accepts
    (s : JarvisServer) (hreq : HeartbeatRequest) (now : Nat)
    (hinvalid : s.client_manager.validate_session
      (hreq.session_token.getD "") = none)
    (rreq : ResultRequest) :
    s.handle_heartbeat hreq now =
      ({ success := false, pending_commands := [] }, s) ∧
    (s.handle_command_result rreq).1 = { received := true } ∧
    (s.handle_command_result rreq).2.command_router.command_results =
      dictInsert s.command_router.command_results (rreq.command_id.getD "")
        rreq ∧
    (s.handle_command_result rreq).2.client_manager = s.client_manager := by
  refine ⟨?_, rfl, rfl, rfl⟩
  simp [JarvisServer.handle_heartbeat, hinvalid]

/-- Closed instance of the amended C2 theorem at `serverFixture` with the
non-validating token "bogus". -/
theorem C2_amended_witness :
    serverFixture.handle_heartbeat
        { session_token := some "bogus", status := none } 7 =
      ({ success := false, pending_commands := [] }, serverFixture) := by
  exact (C2_amended_heartbeat_rejects_report_accepts serverFixture
    { session_token := some "bogus", status := none } 7 rfl
    { command_id := some "cmd-1", session_token := some "bogus"
      success := some true, output := none, error := none }).1

/-! ## C3 -/

/-- C3: with an empty configured token set, `Authenticate` never rejects on
the auth token — for every `authToken` it proceeds to registration and
succeeds whenever the request's `client_info` carries a truthy `client_id`;
with a non-empty set and a token outside it, it returns the structured
failure `{"success": False, "error_message": "Invalid authentication
token"}` and the server state — agent records, session tokens, results — is
completely unchanged. -/
theorem C3_authenticate_allow_list
    (s : JarvisServer) (req : AuthRequest) (fresh : String) (now : Nat) :
    (s.auth_tokens = [] →
      pyFalsyStr ((req.client_info.getD emptyClientInfo).client_id) = false →
      (s.handle_authenticate req fresh now).1.success = true) ∧
    (s.auth_tokens ≠ [] →
      (req.auth_token.getD "") ∉ s.auth_tokens →
      (s.handle_authenticate req fresh now).1 =
        { success := false, session_token := none
          error_message := some "Invalid authentication token"
          heartbeat_interval := none } ∧
      (s.handle_authenticate req fresh now).2 = s) := by
  constructor
  · intro hempty hcid
    simp [JarvisServer.handle_authenticate, hempty,
      ClientManager.register_client, hcid]
  · intro hne hnotin
    have h1 : s.auth_tokens.isEmpty = false := by
      cases hts : s.auth_tokens with
      | nil => exact absurd hts hne
      | cons a l => rfl
    have h2 : s.auth_tokens.contains (req.auth_token.getD "") = false := by
      by_cases hc : s.auth_tokens.contains (req.auth_token.getD "") = true
      · exact absurd (List.mem_of_elem_eq_true hc) hnotin
      · simpa using hc
    constructor
    · simp [JarvisServer.handle_authenticate, h1, h2, hnotin]
    · simp [JarvisServer.handle_authenticate, h1, h2, hnotin]

/-- Closed instance of C3: auth disabled accepts an arbitrary token;
a configured allow-list rejects an unlisted token without touching state. -/
theorem C3_witness :
    (authDisabledServer.handle_authenticate
        { auth_token := some "anything", client_info := some ciA }
        "tok-9" 3).1.success = true ∧
      (serverFixture.handle_authenticate
          { auth_token := some "wrong", client_info := some ciA }
          "tok-9" 3).2 = serverFixture := by
  constructor
  · exact (C3_authenticate_allow_list authDisabledServer
      { auth_token := some "anything", client_info := some ciA }
      "tok-9" 3).1 rfl rfl
  · exact ((C3_authenticate_allow_list serverFixture
      { auth_token := some "wrong", client_info := some ciA }
      "tok-9" 3).2 (by decide) (by decide)).2

/-! ## queue_command characterization (shared helpers) -/

theorem queue_command_fst (m : ClientManager) (cid : String)
    (cmd : PendingCommand) :
    (m.queue_command cid cmd).1 = (dictGet m.clients cid).isSome := by
  cases h : dictGet m.clients cid <;> simp [ClientManager.queue_command, h]

theorem queue_command_get_self (m : ClientManager) (cid : String)
    (cmd : PendingCommand) (c : ConnectedClient)
    (hc : dictGet m.clients cid = some c) :
    dictGet (m.queue_command cid cmd).2.clients cid =
      some { c with pending_commands :=
               c.pending_commands ++ [cmd.toQueued] } := by
  simp [ClientManager.queue_command, hc, dictGet_insert_self]

theorem queue_command_get_ne (m : ClientManager) (cid : String)
    (cmd : PendingCommand) (x : String) (hx : x ≠ cid) :
    dictGet (m.queue_command cid cmd).2.clients x = dictGet m.clients x := by
  cases h : dictGet m.clients cid with
  | none => simp [ClientManager.queue_command, h]
  | some c =>
      simp [ClientManager.queue_command, h,
        dictGet_insert_ne _ _ _ _ (fun he => hx he.symm)]

theorem queue_command_missing (m : ClientManager) (cid : String)
    (cmd : PendingCommand) (h : dictGet m.clients cid = none) :
    m.queue_command cid cmd = (false, m) := by
  simp [ClientManager.queue_command, h]

/-! ## C5 -/

/-- The registry `mA` after an explicit disconnect of "agent-A". -/
def mDisc : ClientManager := (mA.disconnect_client "agent-A").2

/-- A concrete command for the queueing claims. -/
def cmdFixture : PendingCommand :=
  { command_id := "cmd-1", command_type := "shell"
    payload := [("command", "ls")], target_client := "agent-A"
    priority := 0, timeout_seconds := 60, require_confirmation := false
    queued_at := 1 }

/-- C5 counterexample: the claim says `enqueue` appends only when the agent
exists *and is not disconnected*, and reports failure for a disconnected
agent. In the concrete registry `mDisc` the record of "agent-A" is in state
`DISCONNECTED`, yet `queue_command` reports success and appends the command
to its pending queue — the code checks record existence only, never the
state. -/
theorem C5_queue_to_disconnected_succeeds :
    (dictGet mDisc.clients "agent-A").map ConnectedClient.state =
        some ClientState.DISCONNECTED ∧
      (mDisc.queue_command "agent-A" cmdFixture).1 = true ∧
      (dictGet (mDisc.queue_command "agent-A" cmdFixture).2.clients
          "agent-A").map ConnectedClient.pending_commands =
        some [cmdFixture.toQueued] := by
  exact ⟨rfl, rfl, rfl⟩

/-- C5 (amended): `enqueue(agentId, command)` appends the command to that
agent's pending queue if and only if the agent record exists — regardless
of its state, disconnected agents included; for a nonexistent agent it
appends nothing, changes nothing and reports failure. -/
theorem C5_amended_queue_iff_record_exists (m : ClientManager) (cid : String)
    (cmd : PendingCommand) :
    ((m.queue_command cid cmd).1 = true ↔
      (dictGet m.clients cid).isSome = true) ∧
    (∀ c, dictGet m.clients cid = some c →
      dictGet (m.queue_command cid cmd).2.clients cid =
        some { c with pending_commands :=
                 c.pending_commands ++ [cmd.toQueued] } ∧
      ∀ x, x ≠ cid →
        dictGet (m.queue_command cid cmd).2.clients x =
          dictGet m.clients x) ∧
    (dictGet m.clients cid = none → m.queue_command cid cmd = (false, m)) := by
  refine ⟨?_, ?_, queue_command_missing m cid cmd⟩
  · rw [queue_command_fst]
  · intro c hc
    exact ⟨queue_command_get_self m cid cmd c hc,
      fun x hx => queue_command_get_ne m cid cmd x hx⟩

/-- Closed instance of the amended C5 theorem: appending to the existing
(disconnected) record of "agent-A" and failing on the absent "ghost". -/
theorem C5_amended_witness :
    (dictGet (mDisc.queue_command "agent-A" cmdFixture).2.clients
        "agent-A").map ConnectedClient.pending_commands =
      some [cmdFixture.toQueued] ∧
    mDisc.queue_command "ghost" cmdFixture = (false, mDisc) := by
  constructor
  · have h := ((C5_amended_queue_iff_record_exists mDisc "agent-A"
      cmdFixture).2.1
      { client_id := "agent-A", hostname := "pc-01"
        ip_address := "10.0.0.5", os_type := "linux", os_version := "6.1"
        capabilities := ["shell"], state := ClientState.DISCONNECTED
        session_token := some "tok-1", connected_at := 0, last_heartbeat := 0
        last_status := none, pending_commands := [] } rfl).1
    rw [h]
    rfl
  · exact (C5_amended_queue_iff_record_exists mDisc "ghost"
      cmdFixture).2.2 rfl

/-! ## C8 -/

/-- C8 counterexample: the claim says `heartbeat(agentId, statusPayload)`
stores `statusPayload` as the agent's last reported status for *every*
payload. Concretely: after a heartbeat stored `{"cpu": "10"}`, a heartbeat
carrying the empty payload `{}` leaves `last_status` at the old value
instead of storing `{}` — the code guards the store with Python truthiness
(`if status:`), which an empty dict fails. -/
theorem C8_empty_status_payload_not_stored :
    ((dictGet (ClientManager.update_heartbeat
          (mA.update_heartbeat "agent-A" (some [("cpu", "10")]) 1).2
          "agent-A" (some []) 2).2.clients "agent-A").map
        ConnectedClient.last_status ≠ some (some [])) ∧
      ((dictGet (ClientManager.update_heartbeat
            (mA.update_heartbeat "agent-A" (some [("cpu", "10")]) 1).2
            "agent-A" (some []) 2).2.clients "agent-A").map
          ConnectedClient.last_status = some (some [("cpu", "10")])) := by
  exact ⟨by decide, rfl⟩

/-- C8 (amended): for every existing agent, `heartbeat` sets
`lastHeartbeat = now`, transitions the agent to `ACTIVE` and reports
success, leaving every other field and every other agent unchanged; the
status payload is stored as `lastReportedStatus` only when it is truthy
(non-empty) — an empty or missing payload leaves the previously stored
status in place. -/
theorem C8_amended_heartbeat_updates (m : ClientManager) (cid : String)
    (c : ConnectedClient) (status : Option StatusDict) (now : Nat)
    (hc : dictGet m.clients cid = some c) :
    (m.update_heartbeat cid status now).1 = true ∧
    dictGet (m.update_heartbeat cid status now).2.clients cid =
      some { c with
               last_heartbeat := now
               state := ClientState.ACTIVE
               last_status :=
                 if pyTruthyDict status then status else c.last_status } ∧
    ∀ x, x ≠ cid →
      dictGet (m.update_heartbeat cid status now).2.clients x =
        dictGet m.clients x := by
  refine ⟨?_, ?_, ?_⟩
  · simp [ClientManager.update_heartbeat, hc]
  · simp [ClientManager.update_heartbeat, hc, dictGet_insert_self]
  · intro x hx
    simp [ClientManager.update_heartbeat, hc,
      dictGet_insert_ne _ _ _ _ (fun he => hx he.symm)]

/-- Closed instance of the amended C8 theorem: a truthy payload is stored,
the heartbeat timestamp moves, and the state becomes `ACTIVE`. -/
theorem C8_amended_witness :
    (mA.update_heartbeat "agent-A" (some [("cpu", "10")]) 1).1 = true ∧
      dictGet (mA.update_heartbeat "agent-A"
          (some [("cpu", "10")]) 1).2.clients "agent-A" =
        some { client_id := "agent-A", hostname := "pc-01"
               ip_address := "10.0.0.5", os_type := "linux"
               os_version := "6.1", capabilities := ["shell"]
               state := ClientState.ACTIVE, session_token := some "tok-1"
               connected_at := 0, last_heartbeat := 1
               last_status := some [("cpu", "10")]
               pending_commands := [] } := by
  have h := C8_amended_heartbeat_updates mA "agent-A"
    { client_id := "agent-A", hostname := "pc-01", ip_address := "10.0.0.5"
      os_type := "linux", os_version := "6.1", capabilities := ["shell"]
      state := ClientState.AUTHENTICATED, session_token := some "tok-1"
      connected_at := 0, last_heartbeat := 0, last_status := none
      pending_commands := [] } (some [("cpu", "10")]) 1 rfl
  exact ⟨h.1, h.2.1⟩

/-! ## C4: queue traces

A trace language of the two queue-facing registry operations, to state the
exactly-once delivery property across arbitrary interleavings. -/

/-- One registry queue operation. -/
inductive QueueOp where
  | enq (client_id : String) (command : PendingCommand)
  | deq (client_id : String)

/-- Run one operation (keeping only the state). -/
def applyOp (m : ClientManager) : QueueOp → ClientManager
  | .enq cid cmd => (m.queue_command cid cmd).2
  | .deq cid => (m.get_pending_commands cid).2

/-- Run a whole trace. -/
def runOps (m : ClientManager) : List QueueOp → ClientManager
  | [] => m
  | op :: rest => runOps (applyOp m op) rest

/-- The pending queue of agent `A` (empty when no record exists). -/
def pendingOf (m : ClientManager) (A : String) : List QueuedCommand :=
  match dictGet m.clients A with
  | some c => c.pending_commands
  | none => []

/-- Everything the dequeues of a trace hand to agent `A`, in order. -/
def deliveredTo (m : ClientManager) (A : String) :
    List QueueOp → List QueuedCommand
  | [] => []
  | .deq cid :: rest =>
      (if cid = A then (m.get_pending_commands cid).1 else []) ++
        deliveredTo (applyOp m (.deq cid)) A rest
  | .enq cid cmd :: rest => deliveredTo (applyOp m (.enq cid cmd)) A rest

/-- Everything the enqueues of a trace successfully append for agent `A`,
in order. -/
def acceptedFrom (m : ClientManager) (A : String) :
    List QueueOp → List QueuedCommand
  | [] => []
  | .enq cid cmd :: rest =>
      (if cid = A ∧ (m.queue_command cid cmd).1 = true
        then [cmd.toQueued] else []) ++
        acceptedFrom (applyOp m (.enq cid cmd)) A rest
  | .deq cid :: rest => acceptedFrom (applyOp m (.deq cid)) A rest

theorem pendingOf_queue_command (m : ClientManager) (cid A : String)
    (cmd : PendingCommand) :
    pendingOf (m.queue_command cid cmd).2 A =
      pendingOf m A ++
        (if cid = A ∧ (m.queue_command cid cmd).1 = true
          then [cmd.toQueued] else []) := by
  by_cases hA : cid = A
  · subst hA
    cases hc : dictGet m.clients cid with
    | none =>
        rw [queue_command_missing m cid cmd hc]
        simp [pendingOf, hc, queue_command_missing m cid cmd hc]
    | some c =>
        have h1 := queue_command_get_self m cid cmd c hc
        have h2 : (m.queue_command cid cmd).1 = true := by
          rw [queue_command_fst, hc]
          rfl
        simp [pendingOf, hc, h1, h2]
  · have h := queue_command_get_ne m cid cmd A (fun he => hA he.symm)
    simp [pendingOf, h, hA]

theorem get_pending_fst (m : ClientManager) (A : String) :
    (m.get_pending_commands A).1 = pendingOf m A := by
  cases hc : dictGet m.clients A with
  | none => simp [ClientManager.get_pending_commands, pendingOf, hc]
  | some c =>
      by_cases he : c.pending_commands.isEmpty
      · have : c.pending_commands = [] := by
          simpa [List.isEmpty_iff] using he
        simp [ClientManager.get_pending_commands, pendingOf, hc, he, this]
      · simp [ClientManager.get_pending_commands, pendingOf, hc, he]

theorem pendingOf_get_pending (m : ClientManager) (cid A : String) :
    pendingOf (m.get_pending_commands cid).2 A =
      if cid = A then [] else pendingOf m A := by
  by_cases hA : cid = A
  · subst hA
    cases hc : dictGet m.clients cid with
    | none => simp [ClientManager.get_pending_commands, pendingOf, hc]
    | some c =>
        by_cases he : c.pending_commands.isEmpty
        · have : c.pending_commands = [] := by
            simpa [List.isEmpty_iff] using he
          simp [ClientManager.get_pending_commands, pendingOf, hc, he, this]
        · simp [ClientManager.get_pending_commands, pendingOf, hc, he,
            dictGet_insert_self]
  · cases hc : dictGet m.clients cid with
    | none => simp [ClientManager.get_pending_commands, pendingOf, hc, hA]
    | some c =>
        by_cases he : c.pending_commands.isEmpty
        · simp [ClientManager.get_pending_commands, pendingOf, hc, he, hA]
        · simp [ClientManager.get_pending_commands, pendingOf, hc, he, hA,
            dictGet_insert_ne _ _ _ _ hA]

/-- Queue conservation: along any trace, what was delivered to `A` plus
what is still pending for `A` is exactly the initial queue plus what was
accepted for `A`. -/
theorem queue_conservation (ops : List QueueOp) :
    ∀ (m : ClientManager) (A : String),
    deliveredTo m A ops ++ pendingOf (runOps m ops) A =
      pendingOf m A ++ acceptedFrom m A ops := by
  induction ops with
  | nil => intro m A; simp [deliveredTo, runOps, acceptedFrom]
  | cons op rest ih =>
    intro m A
    cases op with
    | enq cid cmd =>
        have key := pendingOf_queue_command m cid A cmd
        calc deliveredTo m A (.enq cid cmd :: rest) ++
              pendingOf (runOps m (.enq cid cmd :: rest)) A
            = deliveredTo (applyOp m (.enq cid cmd)) A rest ++
                pendingOf (runOps (applyOp m (.enq cid cmd)) rest) A := by
              simp [deliveredTo, runOps]
          _ = pendingOf (applyOp m (.enq cid cmd)) A ++
                acceptedFrom (applyOp m (.enq cid cmd)) A rest :=
              ih (applyOp m (.enq cid cmd)) A
          _ = pendingOf m A ++ acceptedFrom m A (.enq cid cmd :: rest) := by
              simp only [applyOp] at *
              rw [key]
              simp [acceptedFrom, applyOp]
    | deq cid =>
        have key := pendingOf_get_pending m cid A
        by_cases hA : cid = A
        · subst hA
          have key0 : pendingOf (applyOp m (.deq cid)) cid = [] := by
            simpa [applyOp] using key
          calc deliveredTo m cid (.deq cid :: rest) ++
                pendingOf (runOps m (.deq cid :: rest)) cid
              = (m.get_pending_commands cid).1 ++
                  (deliveredTo (applyOp m (.deq cid)) cid rest ++
                    pendingOf (runOps (applyOp m (.deq cid)) rest) cid) := by
                simp [deliveredTo, runOps]
            _ = (m.get_pending_commands cid).1 ++
                  (pendingOf (applyOp m (.deq cid)) cid ++
                    acceptedFrom (applyOp m (.deq cid)) cid rest) := by
                rw [ih (applyOp m (.deq cid)) cid]
            _ = pendingOf m cid ++ acceptedFrom m cid (.deq cid :: rest) := by
                rw [key0, get_pending_fst]
                simp [acceptedFrom, applyOp]
        · calc deliveredTo m A (.deq cid :: rest) ++
                pendingOf (runOps m (.deq cid :: rest)) A
              = deliveredTo (applyOp m (.deq cid)) A rest ++
                  pendingOf (runOps (applyOp m (.deq cid)) rest) A := by
                simp [deliveredTo, runOps, hA]
            _ = pendingOf (applyOp m (.deq cid)) A ++
                  acceptedFrom (applyOp m (.deq cid)) A rest :=
                ih (applyOp m (.deq cid)) A
            _ = pendingOf m A ++ acceptedFrom m A (.deq cid :: rest) := by
                simp only [applyOp] at *
                rw [key]
                simp [acceptedFrom, applyOp, hA]

/-- C4: `dequeuePending(A)` (a) returns exactly A's current pending queue
and leaves it empty — an atomic drain (the whole body runs under the
registry lock); and (b) along every trace of enqueues and dequeues,
delivered-plus-still-pending for A equals initial-queue-plus-accepted for
A, so no accepted enqueue occurrence is ever delivered twice: each
command's delivered count is bounded by its count among the initial queue
and the accepted enqueues. -/
theorem C4_dequeue_drains_exactly_once (m : ClientManager) (A : String) :
    (m.get_pending_commands A).1 = pendingOf m A ∧
    pendingOf (m.get_pending_commands A).2 A = [] ∧
    (∀ ops : List QueueOp,
      deliveredTo m A ops ++ pendingOf (runOps m ops) A =
        pendingOf m A ++ acceptedFrom m A ops) ∧
    (∀ (ops : List QueueOp) (q : QueuedCommand),
      (deliveredTo m A ops).count q ≤
        (pendingOf m A ++ acceptedFrom m A ops).count q) := by
  refine ⟨get_pending_fst m A, ?_, fun ops => queue_conservation ops m A, ?_⟩
  · rw [pendingOf_get_pending]
    simp
  · intro ops q
    have h := queue_conservation ops m A
    calc (deliveredTo m A ops).count q
        ≤ (deliveredTo m A ops).count q +
            (pendingOf (runOps m ops) A).count q := Nat.le_add_right _ _
      _ = (deliveredTo m A ops ++ pendingOf (runOps m ops) A).count q := by
          rw [List.count_append]
      _ = (pendingOf m A ++ acceptedFrom m A ops).count q := by rw [h]

/-! ## C7: stale sweep -/

/-- `client.state = ClientState.DISCONNECTED` as a record update. -/
def disC (c : ConnectedClient) : ConnectedClient :=
  { c with state := ClientState.DISCONNECTED }

theorem disC_disC (c : ConnectedClient) : disC (disC c) = disC c := rfl

theorem disC_session_token (c : ConnectedClient) :
    (disC c).session_token = c.session_token := rfl

theorem disconnectStale_clients_get (m : ClientManager) (a x : String) :
    dictGet (m.disconnectStale a).clients x =
      if x = a then (dictGet m.clients a).map disC
      else dictGet m.clients x := by
  cases hc : dictGet m.clients a with
  | none =>
      by_cases hx : x = a
      · subst hx
        simp [ClientManager.disconnectStale, hc]
      · simp [ClientManager.disconnectStale, hc, hx]
  | some c =>
      by_cases hx : x = a
      · subst hx
        cases hst : c.session_token with
        | none =>
            simp [ClientManager.disconnectStale, hc, hst, dictGet_insert_self,
              disC]
        | some tok =>
            simp only [ClientManager.disconnectStale, hc, hst]
            split <;> simp [dictGet_insert_self, disC, hst]
      · cases hst : c.session_token with
        | none =>
            simp [ClientManager.disconnectStale, hc, hst, hx,
              dictGet_insert_ne _ _ _ _ (fun h => hx h.symm)]
        | some tok =>
            simp only [ClientManager.disconnectStale, hc, hst]
            split <;>
              simp [hx, dictGet_insert_ne _ _ _ _ (fun h => hx h.symm)]

theorem disconnectStale_sessions_none (m : ClientManager) (a tok : String)
    (h : dictGet m.sessions tok = none) :
    dictGet (m.disconnectStale a).sessions tok = none := by
  cases hc : dictGet m.clients a with
  | none => simpa [ClientManager.disconnectStale, hc] using h
  | some c =>
      cases hst : c.session_token with
      | none => simpa [ClientManager.disconnectStale, hc, hst] using h
      | some tok2 =>
          simp only [ClientManager.disconnectStale, hc, hst]
          split
          · exact dictGet_erase_of_none _ _ _ h
          · exact h

theorem disconnectStale_erases_token (m : ClientManager) (a : String)
    (c : ConnectedClient) (tok : String) (hc : dictGet m.clients a = some c)
    (ht : c.session_token = some tok) (hnd : NodupKeys m.sessions) :
    dictGet (m.disconnectStale a).sessions tok = none := by
  simp only [ClientManager.disconnectStale, hc, ht]
  split
  · exact dictGet_erase_self _ _ hnd
  · rename_i hguard
    cases hg : dictGet m.sessions tok with
    | none => rfl
    | some v => simp [hg] at hguard

theorem disconnectStale_sessions_nodup (m : ClientManager) (a : String)
    (hnd : NodupKeys m.sessions) :
    NodupKeys (m.disconnectStale a).sessions := by
  cases hc : dictGet m.clients a with
  | none => simpa [ClientManager.disconnectStale, hc] using hnd
  | some c =>
      cases hst : c.session_token with
      | none => simpa [ClientManager.disconnectStale, hc, hst] using hnd
      | some tok =>
          simp only [ClientManager.disconnectStale, hc, hst]
          split
          · exact nodupKeys_dictErase _ _ hnd
          · exact hnd

theorem disconnectStale_clients_nodup (m : ClientManager) (a : String)
    (hnd : NodupKeys m.clients) :
    NodupKeys (m.disconnectStale a).clients := by
  cases hc : dictGet m.clients a with
  | none => simpa [ClientManager.disconnectStale, hc] using hnd
  | some c =>
      cases hst : c.session_token with
      | none =>
          simpa [ClientManager.disconnectStale, hc, hst] using
            nodupKeys_dictInsert _ _ _ hnd
      | some tok =>
          simp only [ClientManager.disconnectStale, hc, hst]
          split <;> exact nodupKeys_dictInsert _ _ _ hnd

theorem disconnectStale_coherent (m : ClientManager) (a : String)
    (hco : ∀ p ∈ m.clients, p.2.client_id = p.1) :
    ∀ p ∈ (m.disconnectStale a).clients, p.2.client_id = p.1 := by
  cases hc : dictGet m.clients a with
  | none => simpa [ClientManager.disconnectStale, hc] using hco
  | some c =>
      have hmem : (a, c) ∈ m.clients := dictGet_mem hc
      have hid : c.client_id = a := hco _ hmem
      have hins : ∀ p ∈ dictInsert m.clients a (disC c), p.2.client_id = p.1 := by
        intro p hp
        rcases mem_dictInsert hp with h1 | h2
        · exact hco _ h1
        · subst h2
          exact hid
      cases hst : c.session_token with
      | none =>
          simpa [ClientManager.disconnectStale, hc, hst, disC] using hins
      | some tok =>
          simp only [ClientManager.disconnectStale, hc, hst]
          split <;> simpa [disC, hst] using hins

theorem foldl_disconnect_stable (L : List String) :
    ∀ (acc : ClientManager) (x : String) (v : ConnectedClient),
    dictGet acc.clients x = some v → disC v = v →
    dictGet (L.foldl ClientManager.disconnectStale acc).clients x = some v := by
  induction L with
  | nil => intro acc x v hv _; exact hv
  | cons a L' ih =>
    intro acc x v hv hfix
    simp only [List.foldl_cons]
    refine ih _ _ _ ?_ hfix
    rw [disconnectStale_clients_get]
    by_cases hx : x = a
    · subst hx
      simp [hv, hfix]
    · simp [hx, hv]

theorem foldl_disconnect_not_mem (L : List String) :
    ∀ (acc : ClientManager) (x : String), x ∉ L →
    dictGet (L.foldl ClientManager.disconnectStale acc).clients x =
      dictGet acc.clients x := by
  induction L with
  | nil => intro acc x _; rfl
  | cons a L' ih =>
    intro acc x hx
    simp only [List.mem_cons, not_or] at hx
    simp only [List.foldl_cons]
    rw [ih _ _ hx.2, disconnectStale_clients_get, if_neg hx.1]

theorem foldl_disconnect_mem (L : List String) :
    ∀ (acc : ClientManager) (x : String) (v : ConnectedClient), x ∈ L →
    dictGet acc.clients x = some v →
    dictGet (L.foldl ClientManager.disconnectStale acc).clients x =
      some (disC v) := by
  induction L with
  | nil => intro acc x v hx _; simp at hx
  | cons a L' ih =>
    intro acc x v hx hv
    simp only [List.foldl_cons]
    by_cases hxa : x = a
    · subst hxa
      have hstep : dictGet (acc.disconnectStale x).clients x =
          some (disC v) := by
        rw [disconnectStale_clients_get, if_pos rfl, hv]
        rfl
      exact foldl_disconnect_stable L' _ _ _ hstep (disC_disC v)
    · rcases List.mem_cons.mp hx with h1 | h2
      · exact absurd h1 hxa
      · refine ih _ _ _ h2 ?_
        rw [disconnectStale_clients_get, if_neg hxa]
        exact hv

theorem foldl_disconnect_sessions_none (L : List String) :
    ∀ (acc : ClientManager) (tok : String),
    dictGet acc.sessions tok = none →
    dictGet (L.foldl ClientManager.disconnectStale acc).sessions tok =
      none := by
  induction L with
  | nil => intro acc tok h; exact h
  | cons a L' ih =>
    intro acc tok h
    simp only [List.foldl_cons]
    exact ih _ _ (disconnectStale_sessions_none _ _ _ h)

theorem foldl_disconnect_sessions_nodup (L : List String) :
    ∀ (acc : ClientManager), NodupKeys acc.sessions →
    NodupKeys (L.foldl ClientManager.disconnectStale acc).sessions := by
  induction L with
  | nil => intro acc h; exact h
  | cons a L' ih =>
    intro acc h
    simp only [List.foldl_cons]
    exact ih _ (disconnectStale_sessions_nodup _ _ h)

theorem foldl_disconnect_erases (L : List String) :
    ∀ (acc : ClientManager) (x tok : String) (v : ConnectedClient),
    x ∈ L → dictGet acc.clients x = some v → v.session_token = some tok →
    NodupKeys acc.sessions →
    dictGet (L.foldl ClientManager.disconnectStale acc).sessions tok =
      none := by
  induction L with
  | nil => intro acc x tok v hx _ _ _; simp at hx
  | cons a L' ih =>
    intro acc x tok v hx hv ht hnd
    simp only [List.foldl_cons]
    by_cases hxa : x = a
    · subst hxa
      exact foldl_disconnect_sessions_none L' _ _
        (disconnectStale_erases_token acc x v tok hv ht hnd)
    · rcases List.mem_cons.mp hx with h1 | h2
      · exact absurd h1 hxa
      · refine ih _ x tok v h2 ?_ ht
          (disconnectStale_sessions_nodup _ _ hnd)
        rw [disconnectStale_clients_get, if_neg hxa]
        exact hv

theorem foldl_disconnect_clients_nodup (L : List String) :
    ∀ (acc : ClientManager), NodupKeys acc.clients →
    NodupKeys (L.foldl ClientManager.disconnectStale acc).clients := by
  induction L with
  | nil => intro acc h; exact h
  | cons a L' ih =>
    intro acc h
    simp only [List.foldl_cons]
    exact ih _ (disconnectStale_clients_nodup _ _ h)

theorem foldl_disconnect_coherent (L : List String) :
    ∀ (acc : ClientManager), (∀ p ∈ acc.clients, p.2.client_id = p.1) →
    ∀ p ∈ (L.foldl ClientManager.disconnectStale acc).clients,
      p.2.client_id = p.1 := by
  induction L with
  | nil => intro acc h; exact h
  | cons a L' ih =>
    intro acc h
    simp only [List.foldl_cons]
    exact ih _ (disconnectStale_coherent _ _ h)

/-- C7: after `cleanup_stale_clients` runs at time `now`, every agent that
was not already `DISCONNECTED` and whose `now − lastHeartbeat` exceeds the
timeout is `DISCONNECTED`, appears in no `get_active_clients()` listing,
and its session token no longer validates; the record of every other agent
is untouched by the sweep. -/
theorem C7_sweep_stale (m : ClientManager) (now : Nat) (hWF : WF m)
    (cid : String) (c : ConnectedClient)
    (hc : dictGet m.clients cid = some c) :
    (isStale now m.heartbeat_timeout c = true →
      dictGet (m.cleanup_stale_clients now).clients cid =
        some { c with state := ClientState.DISCONNECTED } ∧
      (∀ a ∈ (m.cleanup_stale_clients now).get_active_clients,
        a.client_id ≠ cid) ∧
      (∀ tok, c.session_token = some tok →
        (m.cleanup_stale_clients now).validate_session tok = none)) ∧
    (isStale now m.heartbeat_timeout c = false →
      dictGet (m.cleanup_stale_clients now).clients cid = some c) := by
  have hmem0 : (cid, c) ∈ m.clients := dictGet_mem hc
  have hrun : m.cleanup_stale_clients now =
      ((m.clients.filter (fun p =>
          isStale now m.heartbeat_timeout p.2)).map Prod.fst).foldl
        ClientManager.disconnectStale m := rfl
  constructor
  · intro hstale
    have hcidL : cid ∈ (m.clients.filter (fun p =>
        isStale now m.heartbeat_timeout p.2)).map Prod.fst :=
      List.mem_map.mpr ⟨(cid, c),
        List.mem_filter.mpr ⟨hmem0, by simpa using hstale⟩, rfl⟩
    have hfinal : dictGet (m.cleanup_stale_clients now).clients cid =
        some (disC c) := by
      rw [hrun]
      exact foldl_disconnect_mem _ m cid c hcidL hc
    refine ⟨hfinal, ?_, ?_⟩
    · intro a ha haid
      have hnd' : NodupKeys (m.cleanup_stale_clients now).clients := by
        rw [hrun]
        exact foldl_disconnect_clients_nodup _ m hWF.clients_nodup
      have hco' : ∀ p ∈ (m.cleanup_stale_clients now).clients,
          p.2.client_id = p.1 := by
        rw [hrun]
        exact foldl_disconnect_coherent _ m hWF.keys_coherent
      have ha2 : a ∈ ((m.cleanup_stale_clients now).clients.filter
          (fun p => isActiveState p.2.state)).map Prod.snd := ha
      obtain ⟨p, hpf, hpa⟩ := List.mem_map.mp ha2
      have hpm : p ∈ (m.cleanup_stale_clients now).clients :=
        List.mem_of_mem_filter hpf
      have hact : isActiveState p.2.state = true := by
        simpa using List.of_mem_filter hpf
      have hk : p.2.client_id = p.1 := hco' p hpm
      have hp1 : p.1 = cid := by rw [← hk, hpa, haid]
      have hgot : dictGet (m.cleanup_stale_clients now).clients cid =
          some p.2 := by
        rw [← hp1]
        exact dictGet_eq_some_of_mem hnd' hpm
      rw [hfinal] at hgot
      have hp2 : p.2 = disC c := (Option.some.inj hgot).symm
      rw [hp2] at hact
      simp [disC, isActiveState] at hact
    · intro tok htok
      have hsess : dictGet (m.cleanup_stale_clients now).sessions tok =
          none := by
        rw [hrun]
        exact foldl_disconnect_erases _ m cid tok c hcidL hc htok
          hWF.sessions_nodup
      simp [ClientManager.validate_session, hsess]
  · intro hnot
    have hcidL : cid ∉ (m.clients.filter (fun p =>
        isStale now m.heartbeat_timeout p.2)).map Prod.fst := by
      intro hmem
      obtain ⟨p, hpf, hp1⟩ := List.mem_map.mp hmem
      have hpm : p ∈ m.clients := List.mem_of_mem_filter hpf
      have hps : isStale now m.heartbeat_timeout p.2 = true := by
        simpa using List.of_mem_filter hpf
      have hget : dictGet m.clients p.1 = some p.2 :=
        dictGet_eq_some_of_mem hWF.clients_nodup hpm
      rw [hp1, hc] at hget
      have hcp : c = p.2 := Option.some.inj hget
      rw [← hcp] at hps
      rw [hnot] at hps
      exact Bool.false_ne_true hps
    rw [hrun, foldl_disconnect_not_mem _ m cid hcidL]
    exact hc

/-- Two agents registered at time 0; "agent-B" heartbeats at 40s. -/
def mABhb : ClientManager :=
  ((mA.register_client ciB "tok-2" 0).2.update_heartbeat "agent-B" none 40).2

/-- The record of "agent-A" inside `mABhb`. -/
def recA : ConnectedClient :=
  { client_id := "agent-A", hostname := "pc-01", ip_address := "10.0.0.5"
    os_type := "linux", os_version := "6.1", capabilities := ["shell"]
    state := ClientState.AUTHENTICATED, session_token := some "tok-1"
    connected_at := 0, last_heartbeat := 0, last_status := none
    pending_commands := [] }

/-- Closed instance of C7: with a 30s timeout, a sweep at t=40 disconnects
"agent-A" (silent since t=0) and kills its token, while "agent-B"
(heartbeat at t=40) is untouched. -/
theorem C7_witness :
    isStale 40 mABhb.heartbeat_timeout recA = true ∧
      dictGet (mABhb.cleanup_stale_clients 40).clients "agent-A" =
        some { recA with state := ClientState.DISCONNECTED } ∧
      (mABhb.cleanup_stale_clients 40).validate_session "tok-1" = none ∧
      (∀ a ∈ (mABhb.cleanup_stale_clients 40).get_active_clients,
        a.client_id ≠ "agent-A") := by
  have h := C7_sweep_stale mABhb 40
    ⟨by decide, by decide, by decide⟩ "agent-A" recA rfl
  have h1 := h.1 (by decide)
  exact ⟨by decide, h1.1, h1.2.2 "tok-1" rfl, h1.2.1⟩

/-! ## C6: target resolution of send_command -/

theorem foldl_queue_get (cmd : PendingCommand) (S : List ConnectedClient) :
    ∀ (acc : ClientManager) (k : String),
    (S.map ConnectedClient.client_id).Nodup →
    dictGet (S.foldl (fun a c => (a.queue_command c.client_id cmd).2)
        acc).clients k =
      if k ∈ S.map ConnectedClient.client_id then
        (dictGet acc.clients k).map (fun c =>
          { c with pending_commands := c.pending_commands ++ [cmd.toQueued] })
      else dictGet acc.clients k := by
  induction S with
  | nil => intro acc k _; simp
  | cons c0 S' ih =>
    intro acc k hnd
    simp only [List.map_cons, List.nodup_cons] at hnd
    simp only [List.foldl_cons]
    rw [ih _ _ hnd.2]
    by_cases hk : k = c0.client_id
    · subst hk
      have hmem : c0.client_id ∈ (c0 :: S').map ConnectedClient.client_id :=
        by simp
      rw [if_neg hnd.1, if_pos hmem]
      cases hc : dictGet acc.clients c0.client_id with
      | none =>
          rw [queue_command_missing acc c0.client_id cmd hc]
          simp [hc]
      | some c =>
          rw [queue_command_get_self acc c0.client_id cmd c hc]
          simp
    · rw [queue_command_get_ne acc c0.client_id cmd k hk]
      by_cases hm : k ∈ S'.map ConnectedClient.client_id
      · rw [if_pos hm, if_pos (by simp [hm])]
      · rw [if_neg hm, if_neg (by simp [hk, hm])]

theorem active_ids_eq (m : ClientManager)
    (hco : ∀ p ∈ m.clients, p.2.client_id = p.1) :
    m.get_active_clients.map ConnectedClient.client_id =
      (m.clients.filter (fun p => isActiveState p.2.state)).map Prod.fst := by
  unfold ClientManager.get_active_clients
  rw [List.map_map]
  exact List.map_congr_left (fun p hp => hco p (List.mem_of_mem_filter hp))

theorem active_ids_nodup (m : ClientManager) (hWF : WF m) :
    (m.get_active_clients.map ConnectedClient.client_id).Nodup := by
  rw [active_ids_eq m hWF.keys_coherent]
  exact ((List.filter_sublist _).map Prod.fst).nodup hWF.clients_nodup

theorem mem_active_ids (m : ClientManager) (hWF : WF m) (cid : String)
    (c : ConnectedClient) (hc : dictGet m.clients cid = some c) :
    (cid ∈ m.get_active_clients.map ConnectedClient.client_id) ↔
      isActiveState c.state = true := by
  rw [active_ids_eq m hWF.keys_coherent]
  constructor
  · intro hmem
    obtain ⟨p, hpf, hp1⟩ := List.mem_map.mp hmem
    have hpm : p ∈ m.clients := List.mem_of_mem_filter hpf
    have hact : isActiveState p.2.state = true := by
      simpa using List.of_mem_filter hpf
    have hget : dictGet m.clients p.1 = some p.2 :=
      dictGet_eq_some_of_mem hWF.clients_nodup hpm
    rw [hp1, hc] at hget
    rw [Option.some.inj hget]
    exact hact
  · intro hact
    exact List.mem_map.mpr ⟨(cid, c),
      List.mem_filter.mpr ⟨dictGet_mem hc, by simpa using hact⟩, rfl⟩

/-- C6: `send` always returns the freshly generated command id, and resolves
its target as the code does: `"all"` appends a copy to exactly the agents
listed active at call time (a record registered afterwards starts with an
empty queue); otherwise an exact agent-id match is preferred, else the
first case-insensitive hostname match (which indeed bears the queried
hostname), else no queue in the registry changes at all. -/
theorem C6_send_command_resolution (cm : ClientManager) (target : String)
    (command_type : String) (payload : StatusDict) (priority timeout : Int)
    (rc : Bool) (command_id : String) (now : Nat) (hWF : WF cm) :
    (CommandRouter.send_command cm target command_type payload priority
        timeout rc command_id now).1 = command_id ∧
    (target = "all" →
      (∀ cid c, dictGet cm.clients cid = some c →
        dictGet (CommandRouter.send_command cm target command_type payload
            priority timeout rc command_id now).2.clients cid =
          some (if isActiveState c.state then
              { c with pending_commands := c.pending_commands ++
                  [{ command_id := command_id, command_type := command_type
                     payload := payload, priority := priority
                     timeout_seconds := timeout
                     require_confirmation := rc }] }
            else c)) ∧
      (∀ (ci : ClientInfo) (tok : String) (now2 : Nat) (cid2 : String),
        ci.client_id = some cid2 → pyFalsyStr ci.client_id = false →
        pendingOf ((CommandRouter.send_command cm target command_type payload
            priority timeout rc command_id
            now).2.register_client ci tok now2).2 cid2 = [])) ∧
    (target ≠ "all" → ∀ c, dictGet cm.clients target = some c →
      dictGet (CommandRouter.send_command cm target command_type payload
          priority timeout rc command_id now).2.clients target =
        some { c with pending_commands := c.pending_commands ++
            [{ command_id := command_id, command_type := command_type
               payload := payload, priority := priority
               timeout_seconds := timeout, require_confirmation := rc }] } ∧
      (∀ x, x ≠ target →
        dictGet (CommandRouter.send_command cm target command_type payload
            priority timeout rc command_id now).2.clients x =
          dictGet cm.clients x)) ∧
    (target ≠ "all" → dictGet cm.clients target = none →
      ∀ c, cm.get_client_by_hostname target = some c →
        c.hostname.toLower = target.toLower ∧
        dictGet (CommandRouter.send_command cm target command_type payload
            priority timeout rc command_id now).2.clients c.client_id =
          some { c with pending_commands := c.pending_commands ++
              [{ command_id := command_id, command_type := command_type
                 payload := payload, priority := priority
                 timeout_seconds := timeout
                 require_confirmation := rc }] } ∧
        (∀ x, x ≠ c.client_id →
          dictGet (CommandRouter.send_command cm target command_type payload
              priority timeout rc command_id now).2.clients x =
            dictGet cm.clients x)) ∧
    (target ≠ "all" → dictGet cm.clients target = none →
      cm.get_client_by_hostname target = none →
      (CommandRouter.send_command cm target command_type payload priority
          timeout rc command_id now).2 = cm) := by
  refine ⟨?_, ?_, ?_, ?_, ?_⟩
  · unfold CommandRouter.send_command
    by_cases h : target = "all"
    · simp [h]
    · simp only [if_neg h]
      cases dictGet cm.clients target with
      | some c => rfl
      | none =>
          cases cm.get_client_by_hostname target with
          | some c => rfl
          | none => rfl
  · intro hall
    subst hall
    constructor
    · intro cid c hc
      have hstep : (CommandRouter.send_command cm "all" command_type payload
          priority timeout rc command_id now).2 =
          cm.get_active_clients.foldl
            (fun a c => (a.queue_command c.client_id
              { command_id := command_id, command_type := command_type
                payload := payload, target_client := "all"
                priority := priority, timeout_seconds := timeout
                require_confirmation := rc, queued_at := now }).2) cm := rfl
      rw [hstep, foldl_queue_get _ _ _ _ (active_ids_nodup cm hWF)]
      by_cases hact : isActiveState c.state = true
      · rw [if_pos ((mem_active_ids cm hWF cid c hc).mpr hact), hc]
        simp [hact, PendingCommand.toQueued]
      · rw [if_neg (fun hmem =>
          hact ((mem_active_ids cm hWF cid c hc).mp hmem)), hc]
        simp [hact]
    · intro ci tok now2 cid2 hci hfalsy
      unfold ClientManager.register_client
      rw [hfalsy]
      simp only [Bool.false_eq_true, if_false, pendingOf]
      rw [hci]
      simp [dictGet_insert_self]
  · intro hne c hc
    have hcid : c.client_id = target := hWF.keys_coherent _ (dictGet_mem hc)
    have hstep : (CommandRouter.send_command cm target command_type payload
        priority timeout rc command_id now).2 =
        (cm.queue_command c.client_id
          { command_id := command_id, command_type := command_type
            payload := payload, target_client := target
            priority := priority, timeout_seconds := timeout
            require_confirmation := rc, queued_at := now }).2 := by
      unfold CommandRouter.send_command
      simp [hne, hc]
    have hc2 : dictGet cm.clients c.client_id = some c := by
      rw [hcid]; exact hc
    have hkey : target = c.client_id := hcid.symm
    rw [hstep, hkey]
    refine ⟨?_, ?_⟩
    · simpa [PendingCommand.toQueued] using
        queue_command_get_self cm c.client_id _ c hc2
    · intro x hx
      exact queue_command_get_ne cm c.client_id _ x hx
  · intro hne hmiss c hfind
    obtain ⟨p, hp, hp2⟩ : ∃ p, List.find? (fun p =>
        p.2.hostname.toLower == target.toLower) cm.clients = some p ∧
        p.2 = c := by
      unfold ClientManager.get_client_by_hostname at hfind
      cases hf : List.find? (fun p =>
          p.2.hostname.toLower == target.toLower) cm.clients with
      | none => rw [hf] at hfind; simp at hfind
      | some p =>
          rw [hf] at hfind
          exact ⟨p, rfl, by simpa using hfind⟩
    have hpmem : p ∈ cm.clients := List.mem_of_find?_eq_some hp
    have hhost : c.hostname.toLower = target.toLower := by
      have := List.find?_some hp
      rw [hp2] at this
      simpa using this
    have hcid : c.client_id = p.1 := by
      rw [← hp2]; exact hWF.keys_coherent _ hpmem
    have hcget : dictGet cm.clients c.client_id = some c := by
      rw [hcid, ← hp2]
      exact dictGet_eq_some_of_mem hWF.clients_nodup hpmem
    have hstep : (CommandRouter.send_command cm target command_type payload
        priority timeout rc command_id now).2 =
        (cm.queue_command c.client_id
          { command_id := command_id, command_type := command_type
            payload := payload, target_client := target
            priority := priority, timeout_seconds := timeout
            require_confirmation := rc, queued_at := now }).2 := by
      unfold CommandRouter.send_command
      simp [hne, hmiss, hfind]
    rw [hstep]
    refine ⟨hhost, ?_, ?_⟩
    · simpa [PendingCommand.toQueued] using
        queue_command_get_self cm c.client_id _ c hcget
    · intro x hx
      exact queue_command_get_ne cm c.client_id _ x hx
  · intro hne hmiss hnohost
    unfold CommandRouter.send_command
    simp [hne, hmiss, hnohost]

/-- Closed instance of C6: broadcasting to `mABhb` returns the fresh
command id and appends the command to the (active) record of "agent-A". -/
theorem C6_witness :
    (CommandRouter.send_command mABhb "all" "speak" [("text", "hi")] 0 60
        false "cmd-7" 50).1 = "cmd-7" ∧
      dictGet (CommandRouter.send_command mABhb "all" "speak"
          [("text", "hi")] 0 60 false "cmd-7" 50).2.clients "agent-A" =
        some { recA with pending_commands :=
          [{ command_id := "cmd-7", command_type := "speak"
             payload := [("text", "hi")], priority := 0
             timeout_seconds := 60, require_confirmation := false }] } := by
  have h := C6_send_command_resolution mABhb "all" "speak" [("text", "hi")]
    0 60 false "cmd-7" 50 ⟨by decide, by decide, by decide⟩
  refine ⟨h.1, ?_⟩
  have h2 := (h.2.1 rfl).1 "agent-A" recA rfl
  rw [h2]
  rfl

/-! ## C9 -/

/-- C9: the executor is total — the embedding is a total function and every
handler path (including the `except` clauses) is a returned dictionary;
moreover (a) a command type absent from the handler table yields the
structured "Unknown command type" failure before any handler runs, and
(b) a `"shell"` payload whose command string contains any configured
blocked pattern yields a "Blocked command pattern" failure naming the first
matching pattern, and the result is the same for every subprocess oracle —
the command is never executed. -/
theorem C9_executor_totality_and_shell_gate (ex : CommandExecutor)
    (oracle oracle2 : ExecOracle) (command_type : String)
    (payload : ExecPayload) (duration_ms : Int) :
    (handlerTable.contains command_type = false →
      ex.execute oracle command_type payload duration_ms =
        { success := false
          error := some ("Unknown command type: " ++ command_type)
          output := none, exit_code := none, duration_ms := none }) ∧
    (∀ blocked ∈ ex.blocked_commands,
      strContains (payload.command.getD "") blocked = true →
      (ex.execute oracle "shell" payload duration_ms).success = false ∧
      (∃ b ∈ ex.blocked_commands,
        strContains (payload.command.getD "") b = true ∧
        (ex.execute oracle "shell" payload duration_ms).error =
          some ("Blocked command pattern: " ++ b)) ∧
      ex.execute oracle "shell" payload duration_ms =
        ex.execute oracle2 "shell" payload duration_ms) := by
  constructor
  · intro hmiss
    have hnm : command_type ∉ handlerTable := by simpa using hmiss
    simp [CommandExecutor.execute, hmiss, hnm]
  · intro blocked hbmem hbmatch
    obtain ⟨b, hb⟩ : ∃ b, ex.blocked_commands.find? (fun bl =>
        strContains (payload.command.getD "") bl) = some b := by
      cases hf : ex.blocked_commands.find? (fun bl =>
          strContains (payload.command.getD "") bl) with
      | some b => exact ⟨b, rfl⟩
      | none =>
          have := List.find?_eq_none.mp hf blocked hbmem
          simp [hbmatch] at this
    have hbm : b ∈ ex.blocked_commands := List.mem_of_find?_eq_some hb
    have hbp : strContains (payload.command.getD "") b = true := by
      simpa using List.find?_some hb
    have hcond : (!handlerTable.contains "shell") = false := rfl
    have hsh : "shell" ∈ handlerTable := by decide
    refine ⟨?_, ⟨b, hbm, hbp, ?_⟩, ?_⟩
    · simp [CommandExecutor.execute, hcond, hsh,
        CommandExecutor.execute_shell, hb, withDuration]
    · simp [CommandExecutor.execute, hcond, hsh,
        CommandExecutor.execute_shell, hb, withDuration]
    · simp [CommandExecutor.execute, hcond, hsh,
        CommandExecutor.execute_shell, hb, withDuration]

/-- An oracle whose subprocess runs succeed. -/
def oracleA : ExecOracle :=
  { runShell := fun _ _ =>
      { success := true, error := none, output := some "ran"
        exit_code := some 0, duration_ms := none }
    runHandler := fun _ _ =>
      { success := true, error := none, output := some "ok"
        exit_code := none, duration_ms := none } }

/-- An oracle whose subprocess runs fail (to witness oracle-independence). -/
def oracleB : ExecOracle :=
  { runShell := fun _ _ =>
      { success := false, error := some "boom", output := none
        exit_code := some 1, duration_ms := none }
    runHandler := fun _ _ =>
      { success := false, error := some "no", output := none
        exit_code := none, duration_ms := none } }

/-- Closed instance of C9: the unknown type "dance" fails structurally, and
`sudo rm -rf /` is refused identically under both oracles. -/
theorem C9_witness :
    CommandExecutor.initDefault.execute oracleA "dance"
        { command := none, timeout := none, rest := [] } 5 =
      { success := false, error := some "Unknown command type: dance"
        output := none, exit_code := none, duration_ms := none } ∧
    (CommandExecutor.initDefault.execute oracleA "shell"
        { command := some "sudo rm -rf /", timeout := none, rest := [] }
        5).success = false ∧
    CommandExecutor.initDefault.execute oracleA "shell"
        { command := some "sudo rm -rf /", timeout := none, rest := [] } 5 =
      CommandExecutor.initDefault.execute oracleB "shell"
        { command := some "sudo rm -rf /", timeout := none, rest := [] }
        5 := by
  have hu := (C9_executor_totality_and_shell_gate CommandExecutor.initDefault
    oracleA oracleB "dance"
    { command := none, timeout := none, rest := [] } 5).1 (by decide)
  have hs := (C9_executor_totality_and_shell_gate CommandExecutor.initDefault
    oracleA oracleB "shell"
    { command := some "sudo rm -rf /", timeout := none, rest := [] } 5).2
    "rm -rf /" (by decide) (by decide)
  exact ⟨hu, hs.1, hs.2.2⟩

/-! ## C10 -/

/-- C10: under the ideal-signature model of the `cryptography` library,
every certificate issued by `generate_client_cert` under an initialized CA
passes that CA's `verify_certificate`, and a certificate issued by a root
with a different key fails it. -/
theorem C10_certificate_round_trip (caKey caKey2 : RSAPrivateKey)
    (s1 n1 s2 n2 : Nat) (client_id client_id2 : String)
    (hostname hostname2 : Option String) (vd vd2 : Nat)
    (leafKey leafKey2 : RSAPrivateKey) (ls ln ls2 ln2 : Nat)
    (hdiff : caKey.keyId ≠ caKey2.keyId) :
    (∀ cert,
      (CertificateAuthority.initializeGenerate caKey
          s1 n1).generate_client_cert client_id hostname vd leafKey ls ln =
        some cert →
      (CertificateAuthority.initializeGenerate caKey
          s1 n1).verify_certificate cert = true) ∧
    (∀ cert2,
      (CertificateAuthority.initializeGenerate caKey2
          s2 n2).generate_client_cert client_id2 hostname2 vd2 leafKey2 ls2
          ln2 = some cert2 →
      (CertificateAuthority.initializeGenerate caKey
          s1 n1).verify_certificate cert2 = false) := by
  constructor
  · intro cert hcert
    simp only [CertificateAuthority.generate_client_cert,
      CertificateAuthority.initializeGenerate, Option.some.injEq] at hcert
    rw [← hcert]
    simp [CertificateAuthority.verify_certificate,
      CertificateAuthority.initializeGenerate, rsaVerify, rsaSign]
  · intro cert2 hcert
    simp only [CertificateAuthority.generate_client_cert,
      CertificateAuthority.initializeGenerate, Option.some.injEq] at hcert
    rw [← hcert]
    have hbeq : (caKey2.keyId == caKey.keyId) = false := by
      simpa using fun h => hdiff h.symm
    simp [CertificateAuthority.verify_certificate,
      CertificateAuthority.initializeGenerate, rsaVerify, rsaSign, hbeq]

/-- Closed instance of C10 with root keys 0 and 1. -/
theorem C10_witness :
    (CertificateAuthority.initializeGenerate ⟨0⟩ 10 100).verify_certificate
        { tbs := { subject_cn := "agent-A", issuer_cn := "JARVIS CA"
                   public_key := 7, serial_number := 11
                   not_valid_before := 200
                   not_valid_after := 200 + 365 * 86400, is_ca := false }
          signature := rsaSign ⟨0⟩
            { subject_cn := "agent-A", issuer_cn := "JARVIS CA"
              public_key := 7, serial_number := 11
              not_valid_before := 200
              not_valid_after := 200 + 365 * 86400, is_ca := false } } =
      true ∧
    (CertificateAuthority.initializeGenerate ⟨0⟩ 10 100).verify_certificate
        { tbs := { subject_cn := "agent-A", issuer_cn := "JARVIS CA"
                   public_key := 8, serial_number := 12
                   not_valid_before := 300
                   not_valid_after := 300 + 365 * 86400, is_ca := false }
          signature := rsaSign ⟨1⟩
            { subject_cn := "agent-A", issuer_cn := "JARVIS CA"
              public_key := 8, serial_number := 12
              not_valid_before := 300
              not_valid_after := 300 + 365 * 86400, is_ca := false } } =
      false := by
  have h := C10_certificate_round_trip ⟨0⟩ ⟨1⟩ 10 100 20 300 "agent-A"
    "agent-A" none none 365 365 ⟨7⟩ ⟨8⟩ 11 200 12 300 (by decide)
  exact ⟨h.1 _ rfl, h.2 _ rfl⟩

end Jarvis
